import Mathlib

/-!
Verification of the order subsystem of the oceans-react-challenge backend.

Shallow embedding of:
* `createOrder` and `getAllOrdersWithDetails` from the order model
  (src/unnamed/part_002, an orderModel.ts file);
* `createOrderHandler` from src/backend/src/controllers/orderController.ts.

Modelling conventions:
* JavaScript numbers carrying money (price_at_time, total, quantity) are
  embedded as exact rationals `ℚ`; where the source performs arithmetic on
  them (the `reduce` computing the order total) the IEEE-754 double rounding
  of each `+` and `*` is modelled explicitly by `fl` below.
* Database-generated ids (SERIAL columns) are `Nat`, starting from 1.
* The Postgres pool is modelled by an explicit `DBState`; a query failure is
  injected through a `Fault` value naming the statement that fails.  The
  transaction (`BEGIN` … `COMMIT` / `ROLLBACK` in the source) is modelled by
  buffering: writes become visible in the returned `DBState` only on the
  commit path, and every failure path returns the initial state unchanged,
  mirroring the `catch { ROLLBACK; throw new Error('Failed to create order') }`
  block of the source.
-/

/-! ## IEEE-754 double-precision rounding, on exact rationals

The source computes the order total with JavaScript `+` and `*`, which are
IEEE-754 binary64 operations.  `fl q` is the binary64 value nearest to the
exact rational `q` (ties to even), for finite doubles in the normal and
subnormal range; overflow to infinity is outside the range of any value
appearing in this development and is not modelled. -/

/-- Round a nonnegative rational to an integer, half to even (the IEEE
mantissa rounding used by binary64 arithmetic). -/
def rhe (x : ℚ) : ℤ :=
  let n := ⌊x⌋
  if x - n < 1/2 then n
  else if (1:ℚ)/2 < x - n then n + 1
  else if n % 2 = 0 then n else n + 1

/-- Nearest binary64 value to a positive rational: scale the mantissa into
`[2^52, 2^53)` using the base-2 logarithm (exponent clamped at the subnormal
boundary −1022), round half to even, and scale back. -/
def flPos (q : ℚ) : ℚ :=
  let e := max (Int.log 2 q) (-1022)
  (rhe (q * 2 ^ ((52 : ℤ) - e)) : ℚ) * 2 ^ (e - 52)

/-- Nearest binary64 value to a rational (ties to even). -/
def fl (q : ℚ) : ℚ :=
  if q = 0 then 0
  else if q < 0 then - flPos (-q) else flPos q

/-- JavaScript `a + b` on numbers: exact sum, rounded to binary64. -/
def fpAdd (a b : ℚ) : ℚ := fl (a + b)

/-- JavaScript `a * b` on numbers: exact product, rounded to binary64. -/
def fpMul (a b : ℚ) : ℚ := fl (a * b)

/-! ## Data model (src/backend/src/types/index.ts and the live schema) -/

/-- The `IOrderItem` interface / an `order_items` row.  `product_id` is
`Option Nat` because the controller forwards a request item's `product_id`
without any presence check, so `undefined` (= `none`) can flow through. -/
structure IOrderItem where
  id : Nat
  order_id : Nat
  product_id : Option Nat
  quantity : ℚ
  price_at_time : ℚ
deriving DecidableEq, Repr

/-- An `orders` table row (header only). -/
structure OrderRow where
  id : Nat
  user_id : Nat
  total : ℚ
  status : String
  created_at : Nat
deriving DecidableEq, Repr

/-- The `IOrder` interface: an orders row together with its nested
`order_items`, as assembled by the model functions. -/
structure IOrder where
  id : Nat
  user_id : Nat
  total : ℚ
  status : String
  created_at : Nat
  order_items : List IOrderItem
deriving DecidableEq, Repr

/-- The visible (committed) state of the Datastore, plus the id counters of
the two SERIAL columns and the clock used for `created_at` defaults. -/
structure DBState where
  orders : List OrderRow
  order_items : List IOrderItem
  nextOrderId : Nat
  nextItemId : Nat
  now : Nat
deriving DecidableEq, Repr

/-- A fresh Datastore: no rows, SERIAL counters at 1. -/
def initialDB : DBState := ⟨[], [], 1, 1, 0⟩

/-- Fault injection: which statement of the `createOrder` transaction the
Datastore rejects (`none` is the fault-free run). -/
inductive Fault where
  | none
  | atBegin
  | atInsertOrder
  | atInsertItems
  | atCommit
deriving DecidableEq, Repr

/-! ## createOrder (src/unnamed/part_002, lines 4–33) -/

/-- The source's
`orderItems.reduce((sum, item) => sum + item.quantity * item.price_at_time, 0)`,
with each `+` and `*` performed in binary64 as JavaScript does. -/
def jsTotal (orderItems : List IOrderItem) : ℚ :=
  orderItems.foldl (fun sum item => fpAdd sum (fpMul item.quantity item.price_at_time)) 0

/-- The rows produced by the batched
`INSERT INTO order_items (order_id, product_id, quantity, price_at_time) …
RETURNING id, order_id, product_id, quantity, price_at_time`: one row per
input item, in input order, with consecutive SERIAL ids from `nextId` and
every `order_id` equal to the freshly created order's id. -/
def insertedItems (nextId : Nat) (orderId : Nat) : List IOrderItem → List IOrderItem
  | [] => []
  | it :: rest =>
    ⟨nextId, orderId, it.product_id, it.quantity, it.price_at_time⟩ ::
      insertedItems (nextId + 1) orderId rest

/-- Embedding of `createOrder(userId, orderItems)`.

Faithful points: the transaction writes are buffered and merged into the
visible state only at `COMMIT`; any query failure takes the `catch` path,
which issues `ROLLBACK` (returning the initial visible state) and throws the
generic `'Failed to create order'` in place of the original error; an empty
`orderItems` list yields a malformed `INSERT … VALUES` statement, so the
batched item insert itself fails in that case; the returned object is the
orders row spread together with the `RETURNING`-ed item rows. -/
def createOrder (db : DBState) (fault : Fault) (userId : Nat)
    (orderItems : List IOrderItem) : DBState × Except String IOrder :=
  -- await client.query('BEGIN')
  if fault = Fault.atBegin then (db, .error "Failed to create order")
  else
    -- const total = orderItems.reduce(...)
    let total := jsTotal orderItems
    -- INSERT INTO orders (user_id, total, status) VALUES (...) RETURNING *
    if fault = Fault.atInsertOrder then (db, .error "Failed to create order")
    else
      let orow : OrderRow := ⟨db.nextOrderId, userId, total, "pending", db.now⟩
      -- INSERT INTO order_items ... RETURNING ...
      -- (with zero items the VALUES clause is empty and the statement fails)
      if fault = Fault.atInsertItems ∨ orderItems.isEmpty then
        (db, .error "Failed to create order")
      else
        let irows : List IOrderItem := insertedItems db.nextItemId orow.id orderItems
        -- await client.query('COMMIT')
        if fault = Fault.atCommit then (db, .error "Failed to create order")
        else
          ({ orders := db.orders ++ [orow],
             order_items := db.order_items ++ irows,
             nextOrderId := db.nextOrderId + 1,
             nextItemId := db.nextItemId + orderItems.length,
             now := db.now },
           .ok ⟨orow.id, orow.user_id, orow.total, orow.status, orow.created_at, irows⟩)

/-! ## createOrderHandler (src/backend/src/controllers/orderController.ts) -/

/-- A raw request item, before validation: every field may be absent. -/
structure RawOrderItem where
  id : Option Nat
  order_id : Option Nat
  product_id : Option Nat
  quantity : Option ℚ
  price_at_time : Option ℚ
deriving DecidableEq, Repr

/-- The request body's `orderItems` field, as the guard
`!orderItems || !Array.isArray(orderItems)` distinguishes it. -/
inductive ReqBody where
  | missing
  | notArray
  | array (items : List RawOrderItem)
deriving DecidableEq, Repr

/-- JavaScript `x || d` on a possibly-absent number: `undefined` and `0` are
falsy, so both are replaced by the default. -/
def jsOrNat (x : Option Nat) (d : Nat) : Nat :=
  match x with
  | Option.none => d
  | some v => if v = 0 then d else v

/-- JavaScript `x || d` on a possibly-absent rational-valued number. -/
def jsOrQ (x : Option ℚ) (d : ℚ) : ℚ :=
  match x with
  | Option.none => d
  | some v => if v = 0 then d else v

/-- The per-item normalisation inside `createOrderHandler`:
`{ id: item.id || 0, order_id: item.order_id || 0, product_id: item.product_id,
quantity: item.quantity || 1, price_at_time: item.price_at_time || 0 }`.
Note `product_id` is forwarded with no default and no presence check. -/
def validItem (item : RawOrderItem) : IOrderItem :=
  ⟨jsOrNat item.id 0, jsOrNat item.order_id 0, item.product_id,
   jsOrQ item.quantity 1, jsOrQ item.price_at_time 0⟩

/-- Outcome of the handler's pre-Datastore phase: either an early
`res.status(400)` response, or the call `createOrder(userId, validItems)`.
`callCreate` is the only constructor that reaches the Datastore. -/
inductive HandlerResult where
  | badRequest (msg : String)
  | callCreate (validItems : List IOrderItem)
deriving DecidableEq, Repr

/-- Embedding of `createOrderHandler` up to the point where it invokes the
order model: the missing/empty-list guard, the normalisation map, the
`quantity > 0 && price_at_time >= 0` filter and the all-or-nothing length
comparison. -/
def createOrderHandler (body : ReqBody) : HandlerResult :=
  match body with
  | ReqBody.missing => .badRequest "Order items are required"
  | ReqBody.notArray => .badRequest "Order items are required"
  | ReqBody.array items =>
    if items.length = 0 then .badRequest "Order items are required"
    else
      let validItems := (items.map validItem).filter
        (fun it => decide (0 < it.quantity) && decide (0 ≤ it.price_at_time))
      if validItems.length ≠ items.length then .badRequest "Invalid order item data"
      else .callCreate validItems

/-- HTTP-level outcome of the create-order endpoint. -/
inductive EndpointResponse where
  | badRequest (msg : String)
  | created (order : IOrder)
  | serverError (msg : String)
deriving DecidableEq, Repr

/-- The whole endpoint: handler validation followed (only on the
`callCreate` path) by the `createOrder` transaction. -/
def createOrderEndpoint (db : DBState) (fault : Fault) (userId : Nat)
    (body : ReqBody) : DBState × EndpointResponse :=
  match createOrderHandler body with
  | HandlerResult.badRequest msg => (db, .badRequest msg)
  | HandlerResult.callCreate items =>
    match createOrder db fault userId items with
    | (db', Except.ok o) => (db', .created o)
    | (db', Except.error e) => (db', .serverError e)

/-! ## getAllOrdersWithDetails (src/unnamed/part_002, lines 35–72) -/

/-- One row of the `LEFT JOIN` result.  `item_id` is `none` (SQL `NULL`) for
an order with no items; in that case the remaining item columns are also
`NULL` and are never read by the source (the push is guarded by
`if (row.item_id)`), so they are carried here as don't-care values. -/
structure JoinRow where
  id : Nat
  user_id : Nat
  total : ℚ
  status : String
  created_at : Nat
  item_id : Option Nat
  product_id : Option Nat
  quantity : ℚ
  price_at_time : ℚ
deriving DecidableEq, Repr

/-- Truthiness of `row.item_id` in JavaScript: `null` and `0` are falsy. -/
def rowHasItem (row : JoinRow) : Bool :=
  match row.item_id with
  | Option.none => false
  | some i => i != 0

/-- The item pushed by the source for a row whose `item_id` is truthy. -/
def mkItem (row : JoinRow) : IOrderItem :=
  ⟨row.item_id.getD 0, row.id, row.product_id, row.quantity, row.price_at_time⟩

/-- The fresh aggregate stored in `ordersMap[row.id]` on first sight. -/
def newOrder (row : JoinRow) : IOrder :=
  ⟨row.id, row.user_id, row.total, row.status, row.created_at, []⟩

/-- Append one item to an aggregate (`ordersMap[row.id].order_items.push(...)`). -/
def pushItem (row : JoinRow) (o : IOrder) : IOrder :=
  { o with order_items := o.order_items ++ [mkItem row] }

/-- The `ordersMap` object.  A JavaScript object whose keys are array-index
strings (here: positive SERIAL order ids) enumerates its properties in
ascending numeric key order, so the object is embedded as an association
list kept sorted by key; `Object.values` is then the list of second
components. -/
def OrdersMap := List (Nat × IOrder)

/-- Property lookup `ordersMap[k]`. -/
def omLookup (m : List (Nat × IOrder)) (k : Nat) : Option IOrder :=
  match m with
  | [] => Option.none
  | (k', v) :: rest => if k' = k then some v else omLookup rest k

/-- Adding a property with a fresh array-index key: insertion at the sorted
position, which is where JavaScript property enumeration will present it. -/
def omInsert (m : List (Nat × IOrder)) (k : Nat) (v : IOrder) : List (Nat × IOrder) :=
  match m with
  | [] => [(k, v)]
  | (k', v') :: rest =>
    if k < k' then (k, v) :: (k', v') :: rest
    else (k', v') :: omInsert rest k v

/-- In-place mutation of the value stored at key `k`. -/
def omUpdate (m : List (Nat × IOrder)) (k : Nat) (f : IOrder → IOrder) :
    List (Nat × IOrder) :=
  m.map (fun p => if p.1 = k then (p.1, f p.2) else p)

/-- The body of `result.rows.forEach(row => ...)`: create the aggregate on
first sight of an order id, then push the row's item when `item_id` is
truthy. -/
def processRow (m : List (Nat × IOrder)) (row : JoinRow) : List (Nat × IOrder) :=
  let m1 := match omLookup m row.id with
    | Option.none => omInsert m row.id (newOrder row)
    | some _ => m
  if rowHasItem row then omUpdate m1 row.id (pushItem row) else m1

/-- The grouping phase of `getAllOrdersWithDetails`: fold the `forEach` over
the joined rows and return `Object.values(ordersMap)`. -/
def groupRows (rows : List JoinRow) : List IOrder :=
  (rows.foldl processRow []).map Prod.snd

/-- The `LEFT JOIN` query, evaluated on the visible Datastore state: for each
order of the user (in table order), its matching item rows, or a single
NULL-extended row when it has none. -/
def joinRows (db : DBState) (userId : Nat) : List JoinRow :=
  (db.orders.filter (fun o => o.user_id == userId)).flatMap (fun o =>
    let its := db.order_items.filter (fun it => it.order_id == o.id)
    if its.isEmpty then
      [⟨o.id, o.user_id, o.total, o.status, o.created_at, Option.none, Option.none, 0, 0⟩]
    else
      its.map (fun it => ⟨o.id, o.user_id, o.total, o.status, o.created_at,
                          some it.id, it.product_id, it.quantity, it.price_at_time⟩))

/-- Embedding of `getAllOrdersWithDetails(userId)`: a read-only operation;
the returned state is the input state (the function performs no writes). -/
def getAllOrdersWithDetails (db : DBState) (userId : Nat) : DBState × List IOrder :=
  (db, groupRows (joinRows db userId))

/-- The items that the join returned for order id `k`, in row order — the
reference value for the grouping lemmas. -/
def itemsFor (k : Nat) (rows : List JoinRow) : List IOrderItem :=
  (rows.filter (fun r => r.id == k && rowHasItem r)).map mkItem

/-! ## Lemmas about the ordersMap association list -/

lemma omLookup_eq_none {m : List (Nat × IOrder)} {k : Nat} :
    omLookup m k = Option.none ↔ k ∉ m.map Prod.fst := by
  induction m with
  | nil => simp [omLookup]
  | cons p rest ih =>
    obtain ⟨k', v⟩ := p
    by_cases h : k' = k
    · subst h
      simp [omLookup]
    · simp [omLookup, h, ih, Ne.symm h]

lemma mem_omInsert {m : List (Nat × IOrder)} {k : Nat} {v : IOrder}
    {p : Nat × IOrder} : p ∈ omInsert m k v ↔ p = (k, v) ∨ p ∈ m := by
  induction m with
  | nil => simp [omInsert]
  | cons q rest ih =>
    obtain ⟨k', v'⟩ := q
    by_cases h : k < k'
    · simp [omInsert, h]
    · simp [omInsert, h, ih]
      tauto

lemma mem_map_fst_omInsert {m : List (Nat × IOrder)} {k : Nat} {v : IOrder}
    {j : Nat} : j ∈ (omInsert m k v).map Prod.fst ↔ j = k ∨ j ∈ m.map Prod.fst := by
  simp only [List.mem_map]
  constructor
  · rintro ⟨p, hp, rfl⟩
    rcases mem_omInsert.mp hp with rfl | hp'
    · exact Or.inl rfl
    · exact Or.inr ⟨p, hp', rfl⟩
  · rintro (rfl | ⟨p, hp, rfl⟩)
    · exact ⟨(j, v), mem_omInsert.mpr (Or.inl rfl), rfl⟩
    · exact ⟨p, mem_omInsert.mpr (Or.inr hp), rfl⟩

lemma omInsert_sorted {m : List (Nat × IOrder)} {k : Nat} {v : IOrder}
    (hs : (m.map Prod.fst).Pairwise (· < ·)) (hk : k ∉ m.map Prod.fst) :
    ((omInsert m k v).map Prod.fst).Pairwise (· < ·) := by
  induction m with
  | nil => simp [omInsert]
  | cons q rest ih =>
    obtain ⟨k', v'⟩ := q
    simp only [List.map_cons, List.pairwise_cons] at hs
    have hkk' : k ≠ k' := by
      intro h; exact hk (by simp [h])
    have hkrest : k ∉ rest.map Prod.fst := by
      intro h; exact hk (by simp [h])
    by_cases h : k < k'
    · simp only [omInsert, if_pos h, List.map_cons, List.pairwise_cons]
      refine ⟨?_, hs.1, hs.2⟩
      intro b hb
      rcases List.mem_cons.mp hb with rfl | hb'
      · exact h
      · exact lt_trans h (hs.1 b hb')
    · simp only [omInsert, if_neg h, List.map_cons, List.pairwise_cons]
      refine ⟨?_, ih hs.2 hkrest⟩
      intro b hb
      rcases mem_map_fst_omInsert.mp hb with rfl | hb'
      · omega
      · exact hs.1 b hb'

lemma map_fst_omUpdate {m : List (Nat × IOrder)} {k : Nat} {f : IOrder → IOrder} :
    (omUpdate m k f).map Prod.fst = m.map Prod.fst := by
  simp only [omUpdate, List.map_map]
  refine List.map_congr_left ?_
  intro p _
  by_cases h : p.1 = k <;> simp [h]

lemma mem_omUpdate {m : List (Nat × IOrder)} {k : Nat} {f : IOrder → IOrder}
    {p : Nat × IOrder} :
    p ∈ omUpdate m k f ↔ ∃ q ∈ m, p = (if q.1 = k then (q.1, f q.2) else q) := by
  simp only [omUpdate, List.mem_map]
  constructor
  · rintro ⟨q, hq, rfl⟩; exact ⟨q, hq, rfl⟩
  · rintro ⟨q, hq, rfl⟩; exact ⟨q, hq, rfl⟩

lemma itemsFor_append {k : Nat} {rows : List JoinRow} {r : JoinRow} :
    itemsFor k (rows ++ [r]) =
      itemsFor k rows ++ (if r.id == k && rowHasItem r then [mkItem r] else []) := by
  simp only [itemsFor, List.filter_append]
  cases h : (r.id == k && rowHasItem r) <;> simp [h]

lemma itemsFor_eq_nil {k : Nat} {rows : List JoinRow}
    (h : k ∉ rows.map JoinRow.id) : itemsFor k rows = [] := by
  simp only [itemsFor, List.map_eq_nil_iff, List.filter_eq_nil_iff]
  intro r hr
  have : r.id ≠ k := by
    intro hid; exact h (by simp only [List.mem_map]; exact ⟨r, hr, hid⟩)
  simp [this]

lemma order_id_of_mem_itemsFor {k : Nat} {rows : List JoinRow} {it : IOrderItem}
    (h : it ∈ itemsFor k rows) : it.order_id = k := by
  simp only [itemsFor, List.mem_map, List.mem_filter] at h
  obtain ⟨r, ⟨-, hr⟩, rfl⟩ := h
  simp only [Bool.and_eq_true, beq_iff_eq] at hr
  simpa [mkItem] using hr.1

/-- Invariant of the `forEach` fold: after processing `processed`, the map's
keys are strictly increasing, they are exactly the order ids seen so far,
and every entry holds the aggregate for its key with the items the join
returned for that key, in row order. -/
def MapInv (processed : List JoinRow) (m : List (Nat × IOrder)) : Prop :=
  ((m.map Prod.fst).Pairwise (· < ·)) ∧
  (∀ j : Nat, j ∈ m.map Prod.fst ↔ j ∈ processed.map JoinRow.id) ∧
  (∀ p ∈ m, (p : Nat × IOrder).2.id = p.1 ∧ p.2.order_items = itemsFor p.1 processed)

lemma mem_keys_of_omLookup_eq_some {m : List (Nat × IOrder)} {k : Nat}
    {o : IOrder} (hl : omLookup m k = some o) : k ∈ m.map Prod.fst := by
  by_contra hc
  rw [omLookup_eq_none.mpr hc] at hl
  cases hl

lemma processRow_eq_new_push {m : List (Nat × IOrder)} {row : JoinRow}
    (hl : omLookup m row.id = Option.none) (hit : rowHasItem row = true) :
    processRow m row = omUpdate (omInsert m row.id (newOrder row)) row.id (pushItem row) := by
  simp [processRow, hl, hit]

lemma processRow_eq_new {m : List (Nat × IOrder)} {row : JoinRow}
    (hl : omLookup m row.id = Option.none) (hit : rowHasItem row = false) :
    processRow m row = omInsert m row.id (newOrder row) := by
  simp [processRow, hl, hit]

lemma processRow_eq_push {m : List (Nat × IOrder)} {row : JoinRow} {o : IOrder}
    (hl : omLookup m row.id = some o) (hit : rowHasItem row = true) :
    processRow m row = omUpdate m row.id (pushItem row) := by
  simp [processRow, hl, hit]

lemma processRow_eq_same {m : List (Nat × IOrder)} {row : JoinRow} {o : IOrder}
    (hl : omLookup m row.id = some o) (hit : rowHasItem row = false) :
    processRow m row = m := by
  simp [processRow, hl, hit]

/-- One step of the fold preserves the invariant. -/
lemma processRow_inv {processed : List JoinRow} {m : List (Nat × IOrder)}
    {row : JoinRow} (h : MapInv processed m) :
    MapInv (processed ++ [row]) (processRow m row) := by
  obtain ⟨hsort, hkeys, hent⟩ := h
  cases hl : omLookup m row.id with
  | none =>
    have habs : row.id ∉ m.map Prod.fst := omLookup_eq_none.mp hl
    have habsP : row.id ∉ processed.map JoinRow.id :=
      fun hc => habs ((hkeys row.id).mpr hc)
    cases hit : rowHasItem row with
    | true =>
      rw [processRow_eq_new_push hl hit]
      refine ⟨?_, ?_, ?_⟩
      · rw [map_fst_omUpdate]
        exact omInsert_sorted hsort habs
      · intro j
        rw [map_fst_omUpdate, mem_map_fst_omInsert]
        simp only [List.map_append, List.mem_append, List.map_cons, List.map_nil,
          List.mem_singleton, List.mem_cons, List.not_mem_nil, or_false]
        rw [hkeys j]
        tauto
      · intro p hp
        obtain ⟨q, hq, rfl⟩ := mem_omUpdate.mp hp
        rcases mem_omInsert.mp hq with rfl | hq'
        · rw [if_pos rfl]
          refine ⟨by simp [pushItem, newOrder], ?_⟩
          show (pushItem row (newOrder row)).order_items = _
          rw [itemsFor_append, itemsFor_eq_nil habsP]
          simp [pushItem, newOrder, hit]
        · have hq1 : q.1 ≠ row.id := by
            intro hc
            exact habs (hc ▸ List.mem_map.mpr ⟨q, hq', rfl⟩)
          rw [if_neg hq1]
          obtain ⟨hid, hitems⟩ := hent q hq'
          refine ⟨hid, ?_⟩
          rw [itemsFor_append]
          have hg : (row.id == q.1 && rowHasItem row) = false := by
            simp [Ne.symm hq1]
          rw [hg]
          simp [hitems]
    | false =>
      rw [processRow_eq_new hl hit]
      refine ⟨omInsert_sorted hsort habs, ?_, ?_⟩
      · intro j
        rw [mem_map_fst_omInsert]
        simp only [List.map_append, List.mem_append, List.map_cons, List.map_nil,
          List.mem_singleton, List.mem_cons, List.not_mem_nil, or_false]
        rw [hkeys j]
        tauto
      · intro p hp
        rcases mem_omInsert.mp hp with rfl | hp'
        · refine ⟨by simp [newOrder], ?_⟩
          show (newOrder row).order_items = _
          rw [itemsFor_append, itemsFor_eq_nil habsP]
          simp [newOrder, hit]
        · obtain ⟨hid, hitems⟩ := hent p hp'
          refine ⟨hid, ?_⟩
          rw [itemsFor_append]
          have hg : (row.id == p.1 && rowHasItem row) = false := by
            simp [hit]
          rw [hg]
          simp [hitems]
  | some o =>
    have hmem : row.id ∈ m.map Prod.fst := mem_keys_of_omLookup_eq_some hl
    have hkeys' : ∀ j : Nat, j ∈ m.map Prod.fst ↔ j ∈ (processed ++ [row]).map JoinRow.id := by
      intro j
      simp only [List.map_append, List.mem_append, List.map_cons, List.map_nil,
        List.mem_singleton, List.mem_cons, List.not_mem_nil, or_false]
      rw [hkeys j]
      constructor
      · exact Or.inl
      · rintro (hj | rfl)
        · exact hj
        · exact (hkeys row.id).mp hmem
    cases hit : rowHasItem row with
    | true =>
      rw [processRow_eq_push hl hit]
      refine ⟨?_, ?_, ?_⟩
      · rw [map_fst_omUpdate]; exact hsort
      · intro j; rw [map_fst_omUpdate]; exact hkeys' j
      · intro p hp
        obtain ⟨q, hq, rfl⟩ := mem_omUpdate.mp hp
        obtain ⟨hid, hitems⟩ := hent q hq
        by_cases hq1 : q.1 = row.id
        · rw [if_pos hq1]
          refine ⟨by simpa [pushItem] using hid, ?_⟩
          show (pushItem row q.2).order_items = _
          rw [itemsFor_append]
          have hg : (row.id == q.1 && rowHasItem row) = true := by
            simp [hq1, hit]
          rw [hg]
          simp [pushItem, hitems]
        · rw [if_neg hq1]
          refine ⟨hid, ?_⟩
          rw [itemsFor_append]
          have hg : (row.id == q.1 && rowHasItem row) = false := by
            simp [Ne.symm hq1]
          rw [hg]
          simp [hitems]
    | false =>
      rw [processRow_eq_same hl hit]
      refine ⟨hsort, hkeys', ?_⟩
      intro p hp
      obtain ⟨hid, hitems⟩ := hent p hp
      refine ⟨hid, ?_⟩
      rw [itemsFor_append]
      have hg : (row.id == p.1 && rowHasItem row) = false := by
        simp [hit]
      rw [hg]
      simp [hitems]

lemma mapInv_nil : MapInv [] [] := by
  refine ⟨by simp, by simp, by simp⟩

lemma foldl_processRow_inv (rows : List JoinRow) :
    ∀ (processed : List JoinRow) (m : List (Nat × IOrder)),
      MapInv processed m → MapInv (processed ++ rows) (rows.foldl processRow m) := by
  induction rows with
  | nil => intro pr m h; simpa using h
  | cons r rs ih =>
    intro pr m h
    have h2 := ih (pr ++ [r]) (processRow m r) (processRow_inv h)
    simpa [List.append_assoc] using h2

lemma groupRows_mapInv (rows : List JoinRow) :
    MapInv rows (rows.foldl processRow []) := by
  simpa using foldl_processRow_inv rows [] [] mapInv_nil

lemma groupRows_ids_eq (rows : List JoinRow) :
    (groupRows rows).map IOrder.id = (rows.foldl processRow []).map Prod.fst := by
  unfold groupRows
  rw [List.map_map]
  exact List.map_congr_left (fun p hp => ((groupRows_mapInv rows).2.2 p hp).1)

lemma groupRows_sorted (rows : List JoinRow) :
    ((groupRows rows).map IOrder.id).Pairwise (· < ·) := by
  rw [groupRows_ids_eq]
  exact (groupRows_mapInv rows).1

lemma groupRows_items {rows : List JoinRow} {o : IOrder}
    (ho : o ∈ groupRows rows) : o.order_items = itemsFor o.id rows := by
  unfold groupRows at ho
  obtain ⟨p, hp, rfl⟩ := List.mem_map.mp ho
  obtain ⟨hid, hitems⟩ := (groupRows_mapInv rows).2.2 p hp
  rw [hid]
  exact hitems

/-! ## Evaluating the binary64 rounding at concrete values -/

lemma intLog2_eq {q : ℚ} {e : ℤ} (h1 : (2:ℚ)^e ≤ q) (h2 : q < (2:ℚ)^(e+1)) :
    Int.log 2 q = e := by
  have hq : 0 < q := lt_of_lt_of_le (by positivity) h1
  have hcast : ((2:ℕ):ℚ) = (2:ℚ) := by norm_num
  have hle : e ≤ Int.log 2 q := by
    rw [← Int.zpow_le_iff_le_log (by norm_num) hq, hcast]
    exact h1
  have hlt : Int.log 2 q < e + 1 := by
    rw [← Int.lt_zpow_iff_log_lt (by norm_num) hq, hcast]
    exact h2
  omega

lemma flPos_eval (q : ℚ) (e : ℤ) (h1 : (2:ℚ)^e ≤ q) (h2 : q < (2:ℚ)^(e+1))
    (he : -1022 ≤ e) :
    flPos q = (rhe (q * 2 ^ ((52 : ℤ) - e)) : ℚ) * 2 ^ (e - 52) := by
  unfold flPos
  rw [intLog2_eq h1 h2, max_eq_left he]

/-- Rounding the binary64 value nearest 0.1 is the identity. -/
lemma fl_pointOne : fl (7205759403792794 / 2^56) = 7205759403792794 / 2^56 := by
  unfold fl
  rw [if_neg (by norm_num), if_neg (by norm_num)]
  rw [flPos_eval _ (-4) (by norm_num) (by norm_num) (by norm_num)]
  norm_num [rhe]

/-- Rounding the binary64 value nearest 0.2 is the identity. -/
lemma fl_pointTwo : fl (7205759403792794 / 2^55) = 7205759403792794 / 2^55 := by
  unfold fl
  rw [if_neg (by norm_num), if_neg (by norm_num)]
  rw [flPos_eval _ (-3) (by norm_num) (by norm_num) (by norm_num)]
  norm_num [rhe]

/-- The exact sum of the doubles nearest 0.1 and 0.2 is not representable:
binary64 addition rounds it up by one unit in the last place (the tie is
broken to the even mantissa), reproducing the classical
`0.1 + 0.2 === 0.30000000000000004`. -/
lemma fl_sum_pointThree :
    fl (21617278211378382 / 2^56) = 21617278211378384 / 2^56 := by
  unfold fl
  rw [if_neg (by norm_num), if_neg (by norm_num)]
  rw [flPos_eval _ (-2) (by norm_num) (by norm_num) (by norm_num)]
  norm_num [rhe]

/-- Rounding 9.5 (exactly representable) is the identity. -/
lemma fl_nineFifty : fl (19/2) = 19/2 := by
  unfold fl
  rw [if_neg (by norm_num), if_neg (by norm_num)]
  rw [flPos_eval _ 3 (by norm_num) (by norm_num) (by norm_num)]
  norm_num [rhe]

/-! ## Inversion and evaluation helpers for createOrder -/

lemma mem_insertedItems {oid : Nat} {it : IOrderItem} :
    ∀ {l : List IOrderItem} {n : Nat}, it ∈ insertedItems n oid l → it.order_id = oid := by
  intro l
  induction l with
  | nil => intro n h; cases h
  | cons x rest ih =>
    intro n h
    rcases List.mem_cons.mp h with rfl | h'
    · rfl
    · exact ih h'

/-- Inversion of a successful run: the fault must be `Fault.none`, the item
list nonempty, and the returned order and committed state are exactly the
inserted header row and item rows. -/
lemma createOrder_ok_inversion {db : DBState} {fault : Fault} {uid : Nat}
    {items : List IOrderItem} {db' : DBState} {o : IOrder}
    (h : createOrder db fault uid items = (db', Except.ok o)) :
    fault = Fault.none ∧ items ≠ [] ∧
    o = ⟨db.nextOrderId, uid, jsTotal items, "pending", db.now,
         insertedItems db.nextItemId db.nextOrderId items⟩ ∧
    db' = { orders := db.orders ++ [⟨db.nextOrderId, uid, jsTotal items, "pending", db.now⟩],
            order_items := db.order_items ++ insertedItems db.nextItemId db.nextOrderId items,
            nextOrderId := db.nextOrderId + 1,
            nextItemId := db.nextItemId + items.length,
            now := db.now } := by
  cases fault with
  | none =>
    by_cases he : items.isEmpty
    · simp [createOrder, he] at h
    · have hne : items ≠ [] := by
        intro hc; rw [hc] at he; exact he rfl
      simp [createOrder, he] at h
      obtain ⟨hdb, ho⟩ := h
      exact ⟨rfl, hne, ho.symm, hdb.symm⟩
  | atBegin => simp [createOrder] at h
  | atInsertOrder => simp [createOrder] at h
  | atInsertItems => simp [createOrder] at h
  | atCommit =>
    by_cases he : items.isEmpty <;> simp [createOrder, he] at h

/-! ## Concrete inputs used by the claims -/

/-- The exact (infinitely precise) decimal sum claimed by the spec:
`Σ quantity × price_at_time` with no rounding. -/
def exactTotal (items : List IOrderItem) : ℚ :=
  (items.map (fun it => it.quantity * it.price_at_time)).sum

/-- A validated one-unit item priced at the binary64 value nearest 0.1
(the value JSON `0.1` parses to). -/
def cexItem1 : IOrderItem := ⟨0, 0, some 1, 1, 7205759403792794 / 2^56⟩

/-- A validated one-unit item priced at the binary64 value nearest 0.2. -/
def cexItem2 : IOrderItem := ⟨0, 0, some 2, 1, 7205759403792794 / 2^55⟩

lemma fpMul_one_pointOne :
    fpMul 1 (7205759403792794 / 2^56) = 7205759403792794 / 2^56 := by
  unfold fpMul
  rw [one_mul]
  exact fl_pointOne

lemma fpMul_one_pointTwo :
    fpMul 1 (7205759403792794 / 2^55) = 7205759403792794 / 2^55 := by
  unfold fpMul
  rw [one_mul]
  exact fl_pointTwo

lemma fpAdd_zero_pointOne :
    fpAdd 0 (7205759403792794 / 2^56) = 7205759403792794 / 2^56 := by
  unfold fpAdd
  rw [zero_add]
  exact fl_pointOne

lemma fpAdd_pointOne_pointTwo :
    fpAdd (7205759403792794 / 2^56) (7205759403792794 / 2^55)
      = 21617278211378384 / 2^56 := by
  unfold fpAdd
  rw [show (7205759403792794 / 2^56 + 7205759403792794 / 2^55 : ℚ)
        = 21617278211378382 / 2^56 from by norm_num]
  exact fl_sum_pointThree

/-- The total the source computes for the two items: the binary64 sum,
one unit in the last place above the exact sum. -/
lemma jsTotal_cex :
    jsTotal [cexItem1, cexItem2] = 21617278211378384 / 2^56 := by
  have h : jsTotal [cexItem1, cexItem2]
      = fpAdd (fpAdd 0 (fpMul 1 (7205759403792794 / 2^56)))
          (fpMul 1 (7205759403792794 / 2^55)) := rfl
  rw [h, fpMul_one_pointOne, fpMul_one_pointTwo, fpAdd_zero_pointOne,
    fpAdd_pointOne_pointTwo]

/-- The order returned for the C1 failing input. -/
def cexOrder : IOrder :=
  ⟨1, 7, 21617278211378384 / 2^56, "pending", 0,
   [⟨1, 1, some 1, 1, 7205759403792794 / 2^56⟩,
    ⟨2, 1, some 2, 1, 7205759403792794 / 2^55⟩]⟩

lemma createOrder_cex_eval :
    (createOrder initialDB Fault.none 7 [cexItem1, cexItem2]).2
      = Except.ok cexOrder := by
  have h : (createOrder initialDB Fault.none 7 [cexItem1, cexItem2]).2
      = Except.ok ⟨1, 7, jsTotal [cexItem1, cexItem2], "pending", 0,
                   cexOrder.order_items⟩ := rfl
  rw [h, jsTotal_cex]
  rfl

/-- The spec's example-rejection input: `{product_id: 3, quantity: 0,
price_at_time: 9.50}`. -/
def c2raw : RawOrderItem := ⟨Option.none, Option.none, some 3, some 0, some (19/2)⟩

/-- What the handler's normalisation actually makes of the quantity-0 item:
`0 || 1` evaluates to `1`, so the item passes the filter with quantity 1. -/
lemma handler_c2_eval :
    createOrderHandler (ReqBody.array [c2raw])
      = HandlerResult.callCreate [⟨0, 0, some 3, 1, 19/2⟩] := by
  unfold createOrderHandler c2raw
  norm_num [validItem, jsOrNat, jsOrQ, List.filter]

lemma jsTotal_c2 : jsTotal [⟨0, 0, some 3, 1, 19/2⟩] = 19/2 := by
  have h : jsTotal [(⟨0, 0, some 3, 1, 19/2⟩ : IOrderItem)]
      = fpAdd 0 (fpMul 1 (19/2)) := rfl
  rw [h]
  unfold fpMul
  rw [one_mul, fl_nineFifty]
  unfold fpAdd
  rw [zero_add]
  exact fl_nineFifty

/-- The order the quantity-0 request actually creates. -/
def c2order : IOrder := ⟨1, 7, 19/2, "pending", 0, [⟨1, 1, some 3, 1, 19/2⟩]⟩

/-- The committed state after the quantity-0 request: one order row and one
item row (with quantity 1) persisted. -/
def c2db : DBState :=
  ⟨[⟨1, 7, 19/2, "pending", 0⟩], [⟨1, 1, some 3, 1, 19/2⟩], 2, 2, 0⟩

lemma createOrder_c2_eval :
    createOrder initialDB Fault.none 7 [⟨0, 0, some 3, 1, 19/2⟩]
      = (c2db, Except.ok c2order) := by
  have h : createOrder initialDB Fault.none 7 [⟨0, 0, some 3, 1, 19/2⟩]
      = (⟨[⟨1, 7, jsTotal [⟨0, 0, some 3, 1, 19/2⟩], "pending", 0⟩],
          [⟨1, 1, some 3, 1, 19/2⟩], 2, 2, 0⟩,
         Except.ok ⟨1, 7, jsTotal [⟨0, 0, some 3, 1, 19/2⟩], "pending", 0,
                    [⟨1, 1, some 3, 1, 19/2⟩]⟩) := rfl
  rw [h, jsTotal_c2]
  rfl

/-- A raw item with no `product_id` but valid quantity and price. -/
def c5raw : RawOrderItem := ⟨Option.none, Option.none, Option.none, some 1, some 5⟩

/-! ## Concrete joined rows for the listing claims -/

/-- A joined row for order id 2 (appearing first). -/
def rowA : JoinRow := ⟨2, 7, 5, "pending", 0, some 20, some 9, 1, 5⟩

/-- A joined row for order id 1 (appearing second). -/
def rowB : JoinRow := ⟨1, 7, 3, "pending", 0, some 10, some 8, 1, 3⟩

/-- The aggregate built for order id 1. -/
def ord1 : IOrder := ⟨1, 7, 3, "pending", 0, [⟨10, 1, some 8, 1, 3⟩]⟩

/-- The aggregate built for order id 2. -/
def ord2 : IOrder := ⟨2, 7, 5, "pending", 0, [⟨20, 2, some 9, 1, 5⟩]⟩

lemma groupRows_rowA_rowB : groupRows [rowA, rowB] = [ord1, ord2] := rfl

lemma ord1_mem : ord1 ∈ groupRows [rowA, rowB] := by
  rw [groupRows_rowA_rowB]
  exact List.mem_cons_self _ _

/-! ## Claims -/

/-- C1: the claim says the returned total equals the exact decimal sum of
`quantity × price_at_time` over the returned items.  The code computes the
total with binary64 (JavaScript) arithmetic, and at the failing input — two
one-unit items priced at the doubles nearest 0.1 and 0.2 — `createOrder`
succeeds and returns the right number of items, but its total is the
binary64 sum `0.30000000000000004…`, which differs from the exact sum of the
returned items' `quantity × price_at_time`.  (The length half of the claim
does hold.) -/
theorem spec_C1_total_not_exact_sum :
    (createOrder initialDB Fault.none 7 [cexItem1, cexItem2]).2 = Except.ok cexOrder
    ∧ cexOrder.order_items.length = ([cexItem1, cexItem2] : List IOrderItem).length
    ∧ cexOrder.total ≠ exactTotal cexOrder.order_items := by
  refine ⟨createOrder_cex_eval, rfl, ?_⟩
  unfold cexOrder exactTotal
  simp only [List.map_cons, List.map_nil, List.sum_cons, List.sum_nil]
  norm_num

/-- C2: the claim (and the spec's explicit example) says an item with
`quantity 0` is rejected with the "invalid item data" failure and zero items
are persisted.  In the code `item.quantity || 1` treats `0` as falsy, so the
quantity-0 item is silently normalised to quantity 1: the handler proceeds
to the Datastore, the endpoint answers 201 with a created order, and an item
row with quantity 1 is persisted. -/
theorem spec_C2_quantity_zero_not_rejected :
    createOrderHandler (ReqBody.array [c2raw])
      = HandlerResult.callCreate [⟨0, 0, some 3, 1, 19/2⟩]
    ∧ createOrderEndpoint initialDB Fault.none 7 (ReqBody.array [c2raw])
      = (c2db, EndpointResponse.created c2order)
    ∧ c2db.order_items ≠ [] := by
  refine ⟨handler_c2_eval, ?_, by simp [c2db]⟩
  simp only [createOrderEndpoint, handler_c2_eval, createOrder_c2_eval]

/-- C3: every injected Datastore failure inside the `createOrder`
transaction leaves the visible state exactly as it was (full rollback — no
order row, no item rows) and surfaces the generic "Failed to create order"
error in place of the original one. -/
theorem spec_C3_rollback_on_fault :
    ∀ (db : DBState) (fault : Fault) (userId : Nat) (orderItems : List IOrderItem),
      fault ≠ Fault.none →
      createOrder db fault userId orderItems
        = (db, Except.error "Failed to create order") := by
  intro db fault uid items h
  cases fault with
  | none => exact absurd rfl h
  | atBegin => rfl
  | atInsertOrder => rfl
  | atInsertItems => rfl
  | atCommit => cases items with
    | nil => rfl
    | cons a l => rfl

/-- Witness for C3: an item-insert failure after the header insert, on a
fresh store, leaves the store unchanged and raises the generic error. -/
theorem spec_C3_rollback_on_fault_witness :
    createOrder initialDB Fault.atInsertItems 7 [cexItem1]
      = (initialDB, Except.error "Failed to create order") :=
  spec_C3_rollback_on_fault initialDB Fault.atInsertItems 7 [cexItem1]
    (fun h => Fault.noConfusion h)

/-- C4: a missing, non-array or empty `orderItems` is answered with the
"Order items are required" 400 response by the pre-Datastore phase of the
handler (`callCreate` being the only path to the Datastore), and the
endpoint leaves every store state unchanged under every fault schedule —
zero Datastore calls. -/
theorem spec_C4_missing_items_rejected :
    ∀ body : ReqBody,
      (body = ReqBody.missing ∨ body = ReqBody.notArray ∨ body = ReqBody.array []) →
      createOrderHandler body = HandlerResult.badRequest "Order items are required"
      ∧ ∀ (db : DBState) (fault : Fault) (userId : Nat),
          createOrderEndpoint db fault userId body
            = (db, EndpointResponse.badRequest "Order items are required") := by
  rintro body (rfl | rfl | rfl)
  · exact ⟨rfl, fun db fault uid => rfl⟩
  · exact ⟨rfl, fun db fault uid => rfl⟩
  · exact ⟨rfl, fun db fault uid => rfl⟩

/-- Witness for C4 at the empty list on a fresh store. -/
theorem spec_C4_missing_items_rejected_witness :
    createOrderHandler (ReqBody.array [])
      = HandlerResult.badRequest "Order items are required"
    ∧ createOrderEndpoint initialDB Fault.none 7 (ReqBody.array [])
      = (initialDB, EndpointResponse.badRequest "Order items are required") := by
  have h := spec_C4_missing_items_rejected (ReqBody.array []) (Or.inr (Or.inr rfl))
  exact ⟨h.1, h.2 initialDB Fault.none 7⟩

/-- C5 counterexample: a request whose only item supplies no `product_id`
(but a valid quantity and price) is not rejected — the handler reaches the
Datastore call with the `product_id` still absent, refuting "rejected with a
client validation error before any Datastore interaction". -/
theorem spec_C5_counterexample :
    createOrderHandler (ReqBody.array [c5raw])
      = HandlerResult.callCreate [⟨0, 0, Option.none, 1, 5⟩] := by
  unfold createOrderHandler c5raw
  norm_num [validItem, jsOrNat, jsOrQ, List.filter]

/-- C5 amended: the controller performs no shape check on `product_id`: any
nonempty request whose items pass the quantity/price filter reaches the
Datastore call, and each item's `product_id` is forwarded exactly as given
(never defaulted) — an absent `product_id` therefore flows to the Datastore
and can only fail there, as a server-side creation error. -/
theorem spec_C5_product_id_forwarded_unchecked :
    ∀ raws : List RawOrderItem, raws ≠ [] →
      (∀ r ∈ raws, 0 < (validItem r).quantity ∧ 0 ≤ (validItem r).price_at_time) →
      createOrderHandler (ReqBody.array raws)
        = HandlerResult.callCreate (raws.map validItem)
      ∧ ∀ r ∈ raws, (validItem r).product_id = r.product_id := by
  intro raws hne hall
  refine ⟨?_, fun r _ => rfl⟩
  have hfilter : (raws.map validItem).filter
      (fun it => decide (0 < it.quantity) && decide (0 ≤ it.price_at_time))
      = raws.map validItem := by
    rw [List.filter_eq_self]
    intro it hit
    obtain ⟨r, hr, rfl⟩ := List.mem_map.mp hit
    simp only [Bool.and_eq_true, decide_eq_true_eq]
    exact hall r hr
  simp only [createOrderHandler]
  rw [if_neg (by simpa using hne)]
  simp [hfilter]

/-- Witness for the amended C5 at the concrete no-product_id item. -/
theorem spec_C5_product_id_forwarded_witness :
    createOrderHandler (ReqBody.array [c5raw])
      = HandlerResult.callCreate ([c5raw].map validItem)
    ∧ (validItem c5raw).product_id = c5raw.product_id := by
  have h := spec_C5_product_id_forwarded_unchecked [c5raw] (by simp)
    (by
      intro r hr
      rcases List.mem_singleton.mp hr with rfl
      constructor <;> norm_num [validItem, jsOrQ, c5raw])
  exact ⟨h.1, h.2 c5raw (by simp)⟩

/-- C6 counterexample: with rows arriving for order id 2 before order id 1,
the aggregates come back as `[1, 2]` — ascending id order — not in the
first-seen order `[2, 1]` of the rows, refuting "preserving first-seen
order of rows". -/
theorem spec_C6_counterexample :
    (groupRows [rowA, rowB]).map IOrder.id = [1, 2]
    ∧ [rowA.id, rowB.id] = [2, 1] :=
  ⟨by rw [groupRows_rowA_rowB]; rfl, rfl⟩

/-- C6 amended: `getAllOrdersWithDetails` groups rows by order id, but the
aggregates are returned in ascending numeric order of order id (JavaScript
objects enumerate integer keys in ascending order), not in first-seen row
order; within each aggregate the items do appear in the order the join
returned them. -/
theorem spec_C6_grouping :
    ∀ rows : List JoinRow,
      ((groupRows rows).map IOrder.id).Pairwise (· < ·)
      ∧ ∀ o ∈ groupRows rows, o.order_items = itemsFor o.id rows :=
  fun rows => ⟨groupRows_sorted rows, fun _ ho => groupRows_items ho⟩

/-- Witness for the amended C6 at the two concrete rows. -/
theorem spec_C6_grouping_witness :
    ((groupRows [rowA, rowB]).map IOrder.id).Pairwise (· < ·)
    ∧ ord1.order_items = itemsFor ord1.id [rowA, rowB] :=
  ⟨(spec_C6_grouping [rowA, rowB]).1, (spec_C6_grouping [rowA, rowB]).2 ord1 ord1_mem⟩

/-- C7: a successful `createOrder` returns an order with status `'pending'`
and the caller's `user_id` (in particular never `'completed'` or
`'cancelled'`), and the header row it inserts carries the same status and
owner. -/
theorem spec_C7_status_pending :
    ∀ (db : DBState) (userId : Nat) (orderItems : List IOrderItem)
      (db' : DBState) (o : IOrder),
      createOrder db Fault.none userId orderItems = (db', Except.ok o) →
      o.status = "pending" ∧ o.user_id = userId
      ∧ o.status ≠ "completed" ∧ o.status ≠ "cancelled"
      ∧ db'.orders = db.orders ++ [⟨o.id, userId, o.total, "pending", db.now⟩] := by
  intro db uid items db' o h
  obtain ⟨-, -, ho, hdb⟩ := createOrder_ok_inversion h
  subst ho; subst hdb
  exact ⟨rfl, rfl, by simp, by simp, rfl⟩

/-- Witness for C7 at the concrete quantity-1 order. -/
theorem spec_C7_status_pending_witness :
    c2order.status = "pending" ∧ c2order.user_id = 7
    ∧ c2order.status ≠ "completed" ∧ c2order.status ≠ "cancelled"
    ∧ c2db.orders = initialDB.orders
        ++ [⟨c2order.id, 7, c2order.total, "pending", initialDB.now⟩] :=
  spec_C7_status_pending initialDB 7 [⟨0, 0, some 3, 1, 19/2⟩] c2db c2order
    createOrder_c2_eval

/-- C8: listing is read-only and deterministic over an unchanged store —
the state after a `getAllOrdersWithDetails` call is the input state, and a
second call on that state returns an identical result sequence. -/
theorem spec_C8_listing_idempotent :
    ∀ (db : DBState) (userId : Nat),
      (getAllOrdersWithDetails db userId).1 = db
      ∧ (getAllOrdersWithDetails (getAllOrdersWithDetails db userId).1 userId).2
          = (getAllOrdersWithDetails db userId).2 :=
  fun _ _ => ⟨rfl, rfl⟩

/-- C9: for every sequence of joined rows, the order aggregates returned by
the grouping of `getAllOrdersWithDetails` have strictly ascending numeric
ids, regardless of the order the rows arrive in — the consequence of
accumulating into an integer-keyed JavaScript object and taking its
values. -/
theorem spec_C9_ascending_ids :
    ∀ rows : List JoinRow, ((groupRows rows).map IOrder.id).Pairwise (· < ·) :=
  groupRows_sorted

/-- C10: in every aggregate produced by a successful `createOrder` and in
every aggregate produced by the grouping of `getAllOrdersWithDetails`,
each nested item's `order_id` equals the id of the order containing it. -/
theorem spec_C10_item_order_id :
    (∀ (db : DBState) (fault : Fault) (userId : Nat)
        (orderItems : List IOrderItem) (db' : DBState) (o : IOrder),
        createOrder db fault userId orderItems = (db', Except.ok o) →
        ∀ it ∈ o.order_items, it.order_id = o.id)
    ∧ (∀ rows : List JoinRow, ∀ o ∈ groupRows rows,
        ∀ it ∈ o.order_items, it.order_id = o.id) := by
  constructor
  · intro db fault uid items db' o h it hit
    obtain ⟨-, -, ho, -⟩ := createOrder_ok_inversion h
    subst ho
    exact mem_insertedItems hit
  · intro rows o ho it hit
    rw [groupRows_items ho] at hit
    exact order_id_of_mem_itemsFor hit

/-- Witness for C10 on both code paths, at concrete aggregates. -/
theorem spec_C10_item_order_id_witness :
    (⟨1, 1, some 3, 1, 19/2⟩ : IOrderItem).order_id = c2order.id
    ∧ (⟨10, 1, some 8, 1, 3⟩ : IOrderItem).order_id = ord1.id :=
  ⟨spec_C10_item_order_id.1 initialDB Fault.none 7 [⟨0, 0, some 3, 1, 19/2⟩]
      c2db c2order createOrder_c2_eval ⟨1, 1, some 3, 1, 19/2⟩ (by simp [c2order]),
   spec_C10_item_order_id.2 [rowA, rowB] ord1 ord1_mem ⟨10, 1, some 8, 1, 3⟩
      (by simp [ord1])⟩
